import Mathlib

/-!
Verification of `FinancialTools.py`: a shallow embedding of the two pandas
helper functions `calculate_composite_annual_return` and
`calculate_sharpe_ratio`, together with theorems checking the module's
specification against this embedding.

Modelling conventions:
* A pandas `DataFrame` is a fixed row count (the length of the index)
  together with an ordered association list of named columns.
* A cell is `Option ℝ`: `some x` is a finite real, `none` models a
  non-real floating value (NaN, or the infinity produced by a division
  by zero).  Floating-point rounding is idealised to real arithmetic.
* A raised exception (e.g. the `KeyError` of a missing column) is
  modelled by the functions returning `none`.
* Each Python function is embedded twice: a `...Run` version returning
  the pair (final value of the caller's `target_df`, returned frame
  `dfr`) — making the copy-then-write discipline visible for the
  no-mutation claims — and the plain version projecting out the
  returned frame.
-/

open scoped Classical

namespace FinancialTools

/-- A cell value: `some x` is a finite real, `none` a non-real float (NaN/±∞). -/
abbrev Val := Option ℝ

/-- A pandas DataFrame: row count (index length) plus ordered named columns. -/
structure DataFrame where
  nrows : Nat
  cols : List (String × List Val)

/-- Column lookup in the association list (pandas `df[name]` read);
`none` models the `KeyError` raised on a missing column. -/
def getColList : List (String × List Val) → String → Option (List Val)
  | [], _ => none
  | c :: cs, n => if c.1 = n then some c.2 else getColList cs n

def DataFrame.getCol (df : DataFrame) (n : String) : Option (List Val) :=
  getColList df.cols n

/-- Column assignment (pandas `df[name] = values`): overwrite the column in
place when the name exists, append a new last column otherwise. -/
def setColList : List (String × List Val) → String → List Val → List (String × List Val)
  | [], n, v => [(n, v)]
  | c :: cs, n, v => if c.1 = n then (n, v) :: cs else c :: setColList cs n v

def DataFrame.setCol (df : DataFrame) (n : String) (v : List Val) : DataFrame :=
  ⟨df.nrows, setColList df.cols n v⟩

/-- numpy mean of a list of reals (`sum / length`). -/
noncomputable def meanR (l : List ℝ) : ℝ := l.sum / l.length

/-- pandas sample variance with `ddof = 1`. -/
noncomputable def sampleVarR (l : List ℝ) : ℝ :=
  (l.map (fun x => (x - meanR l) ^ 2)).sum / ((l.length : ℝ) - 1)

/-- The scipy `gmean` on a list of reals, computed as `exp(mean(log l))`:
a negative entry makes its log NaN, hence the result NaN (`none`); an entry
equal to `0` contributes `log 0 = -∞`, making the mean `-∞` and the result
`exp (-∞) = 0`; the empty list has NaN mean (`none`). -/
noncomputable def gmeanR (l : List ℝ) : Option ℝ :=
  if l.length = 0 then none
  else if ∃ x ∈ l, x < 0 then none
  else if ∃ x ∈ l, x = 0 then some 0
  else some (Real.exp ((l.map Real.log).sum / l.length))

/-- The scipy `gmean` applied to a column: a NaN cell propagates to NaN. -/
noncomputable def gmean (col : List Val) : Val :=
  if col.any Option.isNone then none else gmeanR (col.filterMap id)

/-- pandas `Series.mean` (skipna): mean of the non-NaN cells, NaN if none. -/
noncomputable def seriesMean (col : List Val) : Val :=
  if (col.filterMap id).length = 0 then none else some (meanR (col.filterMap id))

/-- pandas `Series.std` (skipna, `ddof = 1`): NaN with fewer than two
non-NaN cells, else the square root of the sample variance. -/
noncomputable def seriesStd (col : List Val) : Val :=
  if (col.filterMap id).length < 2 then none
  else some (Real.sqrt (sampleVarR (col.filterMap id)))

/-- Floating division on cells: NaN propagates; dividing by zero produces a
non-real value (±∞ or NaN), modelled `none`. -/
noncomputable def divV : Val → Val → Val
  | some a, some b => if b = 0 then none else some (a / b)
  | _, _ => none

/-- Embedding of `calculate_composite_annual_return`, statement by statement, returning the
pair (final value of `target_df`, returned frame `dfr`). -/
noncomputable def compositeRun (target_df : DataFrame)
    (monthly_return_data_column output_column : String) :
    Option (DataFrame × DataFrame) := do
  -- dfr = target_df.copy()
  let dfr := target_df
  -- dfr[output_column] = dfr[monthly_return_data_column] + 1
  let c1 ← dfr.getCol monthly_return_data_column
  let dfr := dfr.setCol output_column (c1.map (fun v => v.map (fun x => x + 1)))
  -- dfr[output_column] = gmean(dfr[output_column])   (scalar broadcast to len(dfr))
  let c2 ← dfr.getCol output_column
  let dfr := dfr.setCol output_column (List.replicate dfr.nrows (gmean c2))
  -- dfr[output_column] = np.power(dfr[output_column], 12)
  let c3 ← dfr.getCol output_column
  let dfr := dfr.setCol output_column (c3.map (fun v => v.map (fun x => x ^ (12 : ℕ))))
  -- dfr[output_column] = dfr[output_column] - 1
  let c4 ← dfr.getCol output_column
  let dfr := dfr.setCol output_column (c4.map (fun v => v.map (fun x => x - 1)))
  return (target_df, dfr)

noncomputable def calculate_composite_annual_return (target_df : DataFrame)
    (monthly_return_data_column output_column : String) : Option DataFrame :=
  (compositeRun target_df monthly_return_data_column output_column).map Prod.snd

/-- Embedding of `calculate_sharpe_ratio`, statement by statement, returning the pair
(final value of `target_df`, returned frame `dfr`). -/
noncomputable def sharpeRun (target_df : DataFrame) (returns_column : String)
    (risk_free_rate : ℝ) (output_column : String) :
    Option (DataFrame × DataFrame) := do
  -- dfr = target_df.copy()
  let dfr := target_df
  -- dfr['excess_returns'] = dfr[returns_column] - risk_free_rate
  let c1 ← dfr.getCol returns_column
  let dfr := dfr.setCol "excess_returns"
    (c1.map (fun v => v.map (fun x => x - risk_free_rate)))
  -- mean_excess_return = dfr['excess_returns'].mean()
  let ex ← dfr.getCol "excess_returns"
  let mean_excess_return := seriesMean ex
  -- std_deviation = dfr[returns_column].std()
  let rc ← dfr.getCol returns_column
  let std_deviation := seriesStd rc
  -- dfr[output_column] = mean_excess_return / std_deviation   (scalar broadcast)
  let dfr := dfr.setCol output_column
    (List.replicate dfr.nrows (divV mean_excess_return std_deviation))
  return (target_df, dfr)

noncomputable def calculate_sharpe_ratio (target_df : DataFrame)
    (returns_column : String) (risk_free_rate : ℝ) (output_column : String) :
    Option DataFrame :=
  (sharpeRun target_df returns_column risk_free_rate output_column).map Prod.snd

/-! ### Frame lemmas for column access -/

theorem getColList_setColList (cs : List (String × List Val)) (n m : String)
    (v : List Val) :
    getColList (setColList cs n v) m = if m = n then some v else getColList cs m := by
  induction cs with
  | nil =>
    by_cases h : m = n
    · subst h
      simp [setColList, getColList]
    · have h1 : ¬ n = m := fun hh => h hh.symm
      simp [setColList, getColList, h, h1]
  | cons c cs ih =>
    by_cases hc : c.1 = n
    · by_cases h : m = n
      · subst h
        simp [setColList, getColList, hc]
      · have h1 : ¬ n = m := fun hh => h hh.symm
        have h2 : ¬ c.1 = m := by rw [hc]; exact h1
        simp [setColList, getColList, hc, h, h1, h2]
    · by_cases hm : c.1 = m
      · have h : ¬ m = n := by rw [← hm]; exact hc
        simp [setColList, getColList, hc, hm, h]
      · simp [setColList, getColList, hc, hm, ih]

theorem getCol_setCol (df : DataFrame) (n m : String) (v : List Val) :
    (df.setCol n v).getCol m = if m = n then some v else df.getCol m :=
  getColList_setColList df.cols n m v

theorem getCol_setCol_self (df : DataFrame) (n : String) (v : List Val) :
    (df.setCol n v).getCol n = some v := by
  rw [getCol_setCol, if_pos rfl]

theorem getCol_setCol_ne (df : DataFrame) (n m : String) (v : List Val)
    (h : m ≠ n) : (df.setCol n v).getCol m = df.getCol m := by
  rw [getCol_setCol, if_neg h]

theorem setColList_setColList_self (cs : List (String × List Val)) (n : String)
    (v w : List Val) : setColList (setColList cs n v) n w = setColList cs n w := by
  induction cs with
  | nil => simp [setColList]
  | cons c cs ih =>
    by_cases hc : c.1 = n
    · simp [setColList, hc]
    · simp [setColList, hc, ih]

theorem setCol_setCol_self (df : DataFrame) (n : String) (v w : List Val) :
    (df.setCol n v).setCol n w = df.setCol n w := by
  simp [DataFrame.setCol, setColList_setColList_self]

theorem nrows_setCol (df : DataFrame) (n : String) (v : List Val) :
    (df.setCol n v).nrows = df.nrows := rfl

/-! ### Evaluation of the two pipelines -/

/-- With the input column present, `compositeRun` leaves `target_df` intact and
returns it with the output column overwritten by the broadcast aggregate. -/
theorem compositeRun_eq (df : DataFrame) (i o : String) (c : List Val)
    (hget : df.getCol i = some c) :
    compositeRun df i o = some (df, df.setCol o (List.replicate df.nrows
      ((((gmean (c.map (fun v => v.map (fun x => x + 1)))).map
        (fun x => x ^ (12 : ℕ))).map (fun x => x - 1))))) := by
  simp only [compositeRun, hget, getCol_setCol_self, nrows_setCol,
    Option.bind_eq_bind, Option.some_bind, List.map_replicate,
    setCol_setCol_self]
  rfl

/-- With the returns column present, `sharpeRun` leaves `target_df` intact and
returns it with the excess-returns column written and the output column
overwritten by the broadcast ratio. -/
theorem sharpeRun_eq (df : DataFrame) (i o : String) (rfr : ℝ) (c : List Val)
    (hget : df.getCol i = some c) :
    sharpeRun df i rfr o = some (df,
      (df.setCol "excess_returns" (c.map (fun v => v.map (fun x => x - rfr)))).setCol o
        (List.replicate df.nrows
          (divV (seriesMean (c.map (fun v => v.map (fun x => x - rfr))))
            (seriesStd (if i = "excess_returns"
              then c.map (fun v => v.map (fun x => x - rfr)) else c))))) := by
  by_cases hi : i = "excess_returns"
  · subst hi
    simp only [sharpeRun, hget, getCol_setCol_self, nrows_setCol,
      Option.bind_eq_bind, Option.some_bind, if_pos rfl]
    simp
  · simp only [sharpeRun, hget, getCol_setCol_self, nrows_setCol,
      Option.bind_eq_bind, Option.some_bind, if_neg hi,
      getCol_setCol_ne df "excess_returns" i _ hi]
    simp [hget]

/-! ### Evaluating `gmean` on positive real columns -/

theorem log_list_prod (l : List ℝ) (h : ∀ x ∈ l, 0 < x) :
    Real.log l.prod = (l.map Real.log).sum := by
  induction l with
  | nil => simp
  | cons a t ih =>
    have ha : a ≠ 0 := ne_of_gt (h a (by simp))
    have ht : (0 : ℝ) < t.prod := List.prod_pos (fun x hx => h x (by simp [hx]))
    simp only [List.prod_cons, List.map_cons, List.sum_cons]
    rw [Real.log_mul ha (ne_of_gt ht), ih (fun x hx => h x (by simp [hx]))]

theorem filterMap_id_map_some (l : List ℝ) : (l.map some).filterMap id = l := by
  induction l with
  | nil => rfl
  | cons a t ih => simp [ih]

/-- On a column of positive reals, scipy's `exp (mean (log _))` geometric mean
agrees with the n-th root of the product. -/
theorem gmean_map_some_pos (rs : List ℝ) (hne : rs ≠ []) (hpos : ∀ r ∈ rs, 0 < r) :
    gmean (rs.map some) = some (rs.prod ^ ((rs.length : ℝ))⁻¹) := by
  have hnn : ¬ ((rs.map some).any Option.isNone = true) := by simp
  have hn0 : ¬ (rs.length = 0) := fun h => hne (List.eq_nil_of_length_eq_zero h)
  have h1 : ¬ ∃ x ∈ rs, x < 0 :=
    fun ⟨x, hx, hlt⟩ => absurd hlt (not_lt.mpr (le_of_lt (hpos x hx)))
  have h2 : ¬ ∃ x ∈ rs, x = 0 :=
    fun ⟨x, hx, h0⟩ => absurd h0 (ne_of_gt (hpos x hx))
  have hp : (0 : ℝ) < rs.prod := List.prod_pos hpos
  unfold gmean gmeanR
  rw [if_neg hnn, filterMap_id_map_some, if_neg hn0, if_neg h1, if_neg h2]
  congr 1
  rw [Real.rpow_def_of_pos hp, log_list_prod rs hpos, div_eq_mul_inv]

/-- Full evaluation of `calculate_composite_annual_return` on a table whose
input column holds reals `rs`, all greater than `-1`. -/
theorem composite_eval (df : DataFrame) (i o : String) (rs : List ℝ)
    (hget : df.getCol i = some (rs.map some)) (hne : rs ≠ [])
    (hpos : ∀ r ∈ rs, -1 < r) :
    calculate_composite_annual_return df i o = some (df.setCol o
      (List.replicate df.nrows (some
        (((rs.map (fun r => 1 + r)).prod ^ ((rs.length : ℝ))⁻¹) ^ (12 : ℕ) - 1)))) := by
  have hmap : (rs.map some).map (fun v => v.map (fun x => x + 1)) =
      (rs.map (fun r => 1 + r)).map some := by
    simp only [List.map_map]
    congr 1
    funext x
    simp [add_comm]
  have hg := gmean_map_some_pos (rs.map (fun r => 1 + r))
    (by simp [hne])
    (by
      intro x hx
      rcases List.mem_map.mp hx with ⟨r, hr, rfl⟩
      have := hpos r hr
      linarith)
  unfold calculate_composite_annual_return
  rw [compositeRun_eq df i o _ hget, hmap, hg]
  simp

/-! ### Claim C1 -/

/-- C1: for every input table and input column of real periodic returns
`r_1..r_n` (`n ≥ 1`, all `r_i > -1`), `calculate_composite_annual_return`
returns a table in which every row of the output column holds the single
scalar `(geometric_mean of (1 + r_i) over all i) ^ 12 - 1`, the geometric
mean being the n-th root of the product. -/
theorem composite_annual_return_formula (df : DataFrame) (i o : String)
    (rs : List ℝ) (hget : df.getCol i = some (rs.map some)) (hne : rs ≠ [])
    (hpos : ∀ r ∈ rs, -1 < r) :
    ∃ df', calculate_composite_annual_return df i o = some df' ∧
      df'.getCol o = some (List.replicate df.nrows (some
        (((rs.map (fun r => 1 + r)).prod ^ ((rs.length : ℝ))⁻¹) ^ (12 : ℕ) - 1))) :=
  ⟨_, composite_eval df i o rs hget hne hpos, getCol_setCol_self _ _ _⟩

def wdf1 : DataFrame := ⟨1, [("r", [some 0])]⟩

theorem composite_annual_return_formula_witness :
    wdf1.getCol "r" = some ([(0 : ℝ)].map some) ∧ ([(0 : ℝ)] ≠ []) ∧
      (∀ r ∈ [(0 : ℝ)], -1 < r) ∧
      ∃ df', calculate_composite_annual_return wdf1 "r" "out" = some df' ∧
        df'.getCol "out" = some (List.replicate wdf1.nrows (some
          ((([(0 : ℝ)].map (fun r => 1 + r)).prod ^
            (([(0 : ℝ)].length : ℝ))⁻¹) ^ (12 : ℕ) - 1))) :=
  ⟨rfl, by simp, by norm_num,
    composite_annual_return_formula wdf1 "r" "out" [0] rfl (by simp) (by norm_num)⟩

/-! ### Claim C7 -/

/-- C7: for every non-empty input column whose values all equal the same real
`r > -1`, the value `calculate_composite_annual_return` broadcasts into the
output column equals `(1 + r) ^ 12 - 1`. -/
theorem composite_constant_column (df : DataFrame) (i o : String) (c : List Val)
    (r : ℝ) (hget : df.getCol i = some c) (hne : c ≠ [])
    (hall : ∀ v ∈ c, v = some r) (hr : -1 < r) :
    ∃ df', calculate_composite_annual_return df i o = some df' ∧
      df'.getCol o = some (List.replicate df.nrows
        (some ((1 + r) ^ (12 : ℕ) - 1))) := by
  have hc : c = (List.replicate c.length r).map some := by
    rw [List.map_replicate]
    exact List.eq_replicate_iff.mpr ⟨rfl, hall⟩
  have hn : c.length ≠ 0 := fun h => hne (List.eq_nil_of_length_eq_zero h)
  have hrep : (List.replicate c.length r : List ℝ) ≠ [] := by
    simp [List.replicate_eq_nil_iff, hn]
  have heval := composite_eval df i o (List.replicate c.length r)
    (by rw [← hc]; exact hget) hrep
    (by intro x hx; rw [List.eq_of_mem_replicate hx]; exact hr)
  refine ⟨_, heval, ?_⟩
  rw [getCol_setCol_self]
  have hval : (((List.replicate c.length r).map (fun x => 1 + x)).prod ^
      (((List.replicate c.length r).length : ℝ))⁻¹) = 1 + r := by
    rw [List.map_replicate, List.prod_replicate, List.length_replicate]
    have h0 : (0 : ℝ) ≤ 1 + r := by linarith
    rw [← Real.rpow_natCast (1 + r) c.length, ← Real.rpow_mul h0,
      mul_inv_cancel₀ (Nat.cast_ne_zero.mpr hn), Real.rpow_one]
  rw [hval]

def wdf7 : DataFrame := ⟨2, [("r", [some 0, some 0])]⟩

theorem composite_constant_column_witness :
    wdf7.getCol "r" = some [some (0 : ℝ), some 0] ∧
      ([some (0 : ℝ), some 0] ≠ ([] : List Val)) ∧
      (∀ v ∈ [some (0 : ℝ), some 0], v = some (0 : ℝ)) ∧
      ∃ df', calculate_composite_annual_return wdf7 "r" "out" = some df' ∧
        df'.getCol "out" = some (List.replicate wdf7.nrows
          (some ((1 + (0 : ℝ)) ^ (12 : ℕ) - 1))) :=
  ⟨rfl, by simp, by simp,
    composite_constant_column wdf7 "r" "out" [some 0, some 0] 0 rfl (by simp)
      (by simp) (by norm_num)⟩

/-! ### Statistics lemmas for the Sharpe ratio -/

theorem sum_map_sub_const (l : List ℝ) (c : ℝ) :
    (l.map (fun x => x - c)).sum = l.sum - l.length * c := by
  induction l with
  | nil => simp
  | cons a t ih =>
    simp only [List.map_cons, List.sum_cons, List.length_cons, ih]
    push_cast
    ring

theorem meanR_map_sub (l : List ℝ) (c : ℝ) (hne : l ≠ []) :
    meanR (l.map (fun x => x - c)) = meanR l - c := by
  have hn : (l.length : ℝ) ≠ 0 :=
    Nat.cast_ne_zero.mpr (fun h => hne (List.eq_nil_of_length_eq_zero h))
  unfold meanR
  rw [List.length_map, sum_map_sub_const]
  field_simp

/-- The sample variance is invariant under shifting every value by a constant
(this covers a Sharpe call whose returns column is itself named
`excess_returns`, where the standard deviation is taken over the already
shifted values). -/
theorem sampleVarR_map_sub (l : List ℝ) (c : ℝ) (hne : l ≠ []) :
    sampleVarR (l.map (fun x => x - c)) = sampleVarR l := by
  unfold sampleVarR
  rw [List.length_map, meanR_map_sub l c hne, List.map_map]
  congr 2
  exact List.map_congr_left (fun x _ => by simp only [Function.comp_apply]; ring)

theorem list_sum_nonneg_zero (l : List ℝ) (h : ∀ x ∈ l, 0 ≤ x)
    (hs : l.sum = 0) : ∀ x ∈ l, x = 0 := by
  induction l with
  | nil => simp
  | cons a t ih =>
    simp only [List.sum_cons] at hs
    have ha := h a (List.mem_cons_self a t)
    have ht : 0 ≤ t.sum :=
      List.sum_nonneg (fun x hx => h x (List.mem_cons_of_mem a hx))
    have ha0 : a = 0 := by linarith
    have hts : t.sum = 0 := by linarith
    intro x hx
    rcases List.mem_cons.mp hx with rfl | hx
    · exact ha0
    · exact ih (fun y hy => h y (List.mem_cons_of_mem a hy)) hts x hx

theorem sum_sq_pos_of_ne (rs : List ℝ) (a b : ℝ) (ha : a ∈ rs) (hb : b ∈ rs)
    (hab : a ≠ b) : 0 < (rs.map (fun x => (x - meanR rs) ^ 2)).sum := by
  have hnonneg : ∀ y ∈ rs.map (fun x => (x - meanR rs) ^ 2), 0 ≤ y := by
    intro y hy
    rcases List.mem_map.mp hy with ⟨x, _, rfl⟩
    positivity
  refine lt_of_le_of_ne (List.sum_nonneg hnonneg) (fun heq => hab ?_)
  have hz := list_sum_nonneg_zero _ hnonneg heq.symm
  have haz : (a - meanR rs) ^ 2 = 0 := hz _ (List.mem_map_of_mem _ ha)
  have hbz : (b - meanR rs) ^ 2 = 0 := hz _ (List.mem_map_of_mem _ hb)
  have ha' : a - meanR rs = 0 := by
    exact pow_eq_zero_iff (by norm_num) |>.mp haz
  have hb' : b - meanR rs = 0 := by
    exact pow_eq_zero_iff (by norm_num) |>.mp hbz
  linarith

theorem length_two_of_ne (rs : List ℝ) (a b : ℝ) (ha : a ∈ rs) (hb : b ∈ rs)
    (hab : a ≠ b) : 2 ≤ rs.length := by
  cases rs with
  | nil => exact absurd ha (List.not_mem_nil a)
  | cons x t =>
    cases t with
    | nil =>
      rcases List.mem_cons.mp ha with rfl | ha'
      · rcases List.mem_cons.mp hb with rfl | hb'
        · exact absurd rfl hab
        · exact absurd hb' (List.not_mem_nil b)
      · exact absurd ha' (List.not_mem_nil a)
    | cons y u => simp [List.length_cons]

theorem seriesMean_map_some (rs : List ℝ) (hne : rs ≠ []) :
    seriesMean (rs.map some) = some (meanR rs) := by
  unfold seriesMean
  rw [filterMap_id_map_some,
    if_neg (fun h => hne (List.eq_nil_of_length_eq_zero h))]

theorem seriesStd_map_some (rs : List ℝ) (h2 : 2 ≤ rs.length) :
    seriesStd (rs.map some) = some (Real.sqrt (sampleVarR rs)) := by
  unfold seriesStd
  rw [filterMap_id_map_some, if_neg (by omega)]

/-- Full evaluation of `calculate_sharpe_ratio` on a table whose returns
column holds non-constant reals `rs`. -/
theorem sharpe_eval (df : DataFrame) (i o : String) (rfr : ℝ) (rs : List ℝ)
    (hget : df.getCol i = some (rs.map some))
    (hnc : ∃ a ∈ rs, ∃ b ∈ rs, a ≠ b) :
    calculate_sharpe_ratio df i rfr o = some
      ((df.setCol "excess_returns" ((rs.map (fun x => x - rfr)).map some)).setCol o
        (List.replicate df.nrows
          (some ((meanR rs - rfr) / Real.sqrt (sampleVarR rs))))) := by
  obtain ⟨a, ha, b, hb, hab⟩ := hnc
  have hne : rs ≠ [] := by
    rintro rfl
    exact absurd ha (List.not_mem_nil a)
  have h2 : 2 ≤ rs.length := length_two_of_ne rs a b ha hb hab
  have hmap : (rs.map some).map (fun v => v.map (fun x => x - rfr)) =
      (rs.map (fun x => x - rfr)).map some := by
    simp [List.map_map]
  have hvar : 0 < sampleVarR rs := by
    unfold sampleVarR
    apply div_pos (sum_sq_pos_of_ne rs a b ha hb hab)
    have h2' : (2 : ℝ) ≤ rs.length := by exact_mod_cast h2
    linarith
  have hstd : Real.sqrt (sampleVarR rs) ≠ 0 := ne_of_gt (Real.sqrt_pos.mpr hvar)
  have hmean : seriesMean ((rs.map (fun x => x - rfr)).map some) =
      some (meanR rs - rfr) := by
    rw [seriesMean_map_some _ (by simp [hne]), meanR_map_sub rs rfr hne]
  have hstdraw : seriesStd (rs.map some) = some (Real.sqrt (sampleVarR rs)) :=
    seriesStd_map_some rs h2
  have hstdsh : seriesStd ((rs.map (fun x => x - rfr)).map some) =
      some (Real.sqrt (sampleVarR rs)) := by
    rw [seriesStd_map_some _ (by rw [List.length_map]; exact h2),
      sampleVarR_map_sub rs rfr hne]
  have hdiv : divV (some (meanR rs - rfr)) (some (Real.sqrt (sampleVarR rs))) =
      some ((meanR rs - rfr) / Real.sqrt (sampleVarR rs)) := by
    simp [divV, hstd]
  unfold calculate_sharpe_ratio
  rw [sharpeRun_eq df i o rfr _ hget, hmap]
  by_cases hi : i = "excess_returns"
  · rw [if_pos hi, hmean, hstdsh, hdiv]
    rfl
  · rw [if_neg hi, hmean, hstdraw, hdiv]
    rfl

/-! ### Claim C2 -/

/-- C2: for every input table with a non-empty returns column of non-constant
real values and every real `risk_free_rate`, `calculate_sharpe_ratio` writes
into every row of the output column the single scalar
`(mean(returns) - risk_free_rate) / sample_stddev(returns)`, the standard
deviation being taken over the raw returns column. -/
theorem sharpe_ratio_formula (df : DataFrame) (i o : String) (rfr : ℝ)
    (rs : List ℝ) (hget : df.getCol i = some (rs.map some))
    (hnc : ∃ a ∈ rs, ∃ b ∈ rs, a ≠ b) :
    ∃ df', calculate_sharpe_ratio df i rfr o = some df' ∧
      df'.getCol o = some (List.replicate df.nrows (some
        ((rs.sum / rs.length - rfr) /
          Real.sqrt ((rs.map (fun x => (x - rs.sum / rs.length) ^ 2)).sum /
            ((rs.length : ℝ) - 1))))) := by
  refine ⟨_, sharpe_eval df i o rfr rs hget hnc, ?_⟩
  rw [getCol_setCol_self]
  rfl

def wdf2 : DataFrame := ⟨2, [("r", [some 0, some 1])]⟩

theorem sharpe_ratio_formula_witness :
    wdf2.getCol "r" = some ([(0 : ℝ), 1].map some) ∧
      (∃ a ∈ [(0 : ℝ), 1], ∃ b ∈ [(0 : ℝ), 1], a ≠ b) ∧
      ∃ df', calculate_sharpe_ratio wdf2 "r" 0 "sh" = some df' ∧
        df'.getCol "sh" = some (List.replicate wdf2.nrows (some
          (([(0 : ℝ), 1].sum / ([(0 : ℝ), 1] : List ℝ).length - 0) /
            Real.sqrt (([(0 : ℝ), 1].map
              (fun x => (x - [(0 : ℝ), 1].sum / ([(0 : ℝ), 1] : List ℝ).length) ^ 2)).sum /
              ((([(0 : ℝ), 1] : List ℝ).length : ℝ) - 1))))) :=
  ⟨rfl, ⟨0, by simp, 1, by simp, by norm_num⟩,
    sharpe_ratio_formula wdf2 "r" "sh" 0 [0, 1] rfl
      ⟨0, by simp, 1, by simp, by norm_num⟩⟩

/-! ### Claim C3: the excess-returns column is NOT transient -/

def wdf3 : DataFrame := ⟨1, [("r", [some 0])]⟩

/-- C3 counterexample: on a table with no `excess_returns` column,
`calculate_sharpe_ratio` returns a table in which `excess_returns` is
present (holding `returns - risk_free_rate`), so more than the single
caller-supplied output column is added: the intermediate column is not
transient, refuting the claim as stated. -/
theorem sharpe_excess_not_transient :
    (calculate_sharpe_ratio wdf3 "r" 0 "sh").bind
        (fun d => d.getCol "excess_returns") = some [some 0] ∧
      wdf3.getCol "excess_returns" = none ∧
      ("excess_returns" : String) ≠ "sh" := by
  refine ⟨?_, rfl, by decide⟩
  unfold calculate_sharpe_ratio
  rw [sharpeRun_eq wdf3 "r" "sh" 0 [some 0] rfl]
  simp only [Option.map_some', Option.some_bind]
  rw [getCol_setCol_ne _ _ _ _ (by decide), getCol_setCol_self]
  norm_num

/-- C3 (amended): the table returned by `calculate_sharpe_ratio` is the input
with the output column written and the `excess_returns` column written (not
dropped); every column named differently from these two is unchanged. -/
theorem sharpe_frame (df : DataFrame) (i o : String) (rfr : ℝ)
    (df' : DataFrame) (h : calculate_sharpe_ratio df i rfr o = some df') :
    (∀ n, n ≠ o → n ≠ "excess_returns" → df'.getCol n = df.getCol n) ∧
      (∃ out, df'.getCol o = some out) ∧
      (∃ ex, df'.getCol "excess_returns" = some ex) := by
  cases hget : df.getCol i with
  | none => simp [calculate_sharpe_ratio, sharpeRun, hget] at h
  | some c =>
    unfold calculate_sharpe_ratio at h
    rw [sharpeRun_eq df i o rfr c hget] at h
    simp only [Option.map_some', Option.some.injEq] at h
    subst h
    refine ⟨?_, ⟨_, getCol_setCol_self _ _ _⟩, ?_⟩
    · intro n hno hne
      rw [getCol_setCol_ne _ _ _ _ hno, getCol_setCol_ne _ _ _ _ hne]
    · rw [getCol_setCol]
      by_cases ho : ("excess_returns" : String) = o
      · rw [if_pos ho]
        exact ⟨_, rfl⟩
      · rw [if_neg ho, getCol_setCol_self]
        exact ⟨_, rfl⟩

def wdf3b : DataFrame := ⟨1, [("a", [some 5]), ("r", [some 0])]⟩

def wout3 : DataFrame :=
  ⟨1, [("a", [some 5]), ("r", [some 0]),
    ("excess_returns", [some ((0 : ℝ) - 0)]), ("sh", [none])]⟩

theorem sharpe_frame_witness :
    calculate_sharpe_ratio wdf3b "r" 0 "sh" = some wout3 ∧
      ((∀ n, n ≠ "sh" → n ≠ "excess_returns" →
          wout3.getCol n = wdf3b.getCol n) ∧
        (∃ out, wout3.getCol "sh" = some out) ∧
        (∃ ex, wout3.getCol "excess_returns" = some ex)) := by
  have hcalc : calculate_sharpe_ratio wdf3b "r" 0 "sh" = some wout3 := by
    unfold calculate_sharpe_ratio
    rw [sharpeRun_eq wdf3b "r" "sh" 0 [some 0] rfl]
    rfl
  exact ⟨hcalc, sharpe_frame wdf3b "r" "sh" 0 wout3 hcalc⟩

/-! ### Claim C10: a pre-existing excess_returns column is overwritten -/

/-- C10: if the input table already contains an `excess_returns` column
(distinct from the output column), the returned table holds in that column
the values `returns - risk_free_rate` instead of the caller's data. -/
theorem sharpe_overwrites_excess (df : DataFrame) (i o : String) (rfr : ℝ)
    (c c₀ : List Val) (hget : df.getCol i = some c)
    (_hpre : df.getCol "excess_returns" = some c₀) (ho : o ≠ "excess_returns") :
    ∃ df', calculate_sharpe_ratio df i rfr o = some df' ∧
      df'.getCol "excess_returns" =
        some (c.map (fun v => v.map (fun x => x - rfr))) := by
  unfold calculate_sharpe_ratio
  rw [sharpeRun_eq df i o rfr c hget]
  refine ⟨_, rfl, ?_⟩
  rw [getCol_setCol_ne _ _ _ _ (fun hh => ho hh.symm), getCol_setCol_self]

def wdf10 : DataFrame := ⟨1, [("r", [some 0]), ("excess_returns", [some 7])]⟩

theorem sharpe_overwrites_excess_witness :
    wdf10.getCol "r" = some [some 0] ∧
      wdf10.getCol "excess_returns" = some [some 7] ∧
      ("sh" : String) ≠ "excess_returns" ∧
      ∃ df', calculate_sharpe_ratio wdf10 "r" 0 "sh" = some df' ∧
        df'.getCol "excess_returns" =
          some ([some (0 : ℝ)].map (fun v => v.map (fun x => x - 0))) :=
  ⟨rfl, rfl, by decide,
    sharpe_overwrites_excess wdf10 "r" "sh" 0 [some 0] [some 7] rfl rfl
      (by decide)⟩

/-! ### Claim C4: the input table is never mutated -/

/-- C4: neither function mutates `target_df`: the first component of the
state pair (the caller's table after the call) is exactly the input table,
and if the output column was absent before the call it is still absent. -/
theorem input_table_not_mutated (df : DataFrame) (i o : String) (rfr : ℝ)
    (p q : DataFrame × DataFrame)
    (hc : compositeRun df i o = some p) (hs : sharpeRun df i rfr o = some q) :
    p.1 = df ∧ q.1 = df ∧
      (df.getCol o = none → p.1.getCol o = none ∧ q.1.getCol o = none) := by
  cases hget : df.getCol i with
  | none => simp [compositeRun, hget] at hc
  | some c =>
    rw [compositeRun_eq df i o c hget] at hc
    rw [sharpeRun_eq df i o rfr c hget] at hs
    obtain rfl := Option.some.inj hc
    obtain rfl := Option.some.inj hs
    exact ⟨rfl, rfl, fun h => ⟨h, h⟩⟩

def wdf4 : DataFrame := ⟨1, [("r", [some 0])]⟩

noncomputable def wout4c : DataFrame :=
  wdf4.setCol "out" (List.replicate wdf4.nrows
    (((gmean ([some (0 : ℝ)].map (fun v => v.map (fun x => x + 1)))).map
      (fun x => x ^ (12 : ℕ))).map (fun x => x - 1)))

noncomputable def wout4s : DataFrame :=
  (wdf4.setCol "excess_returns"
      ([some (0 : ℝ)].map (fun v => v.map (fun x => x - 0)))).setCol "out"
    (List.replicate wdf4.nrows
      (divV (seriesMean ([some (0 : ℝ)].map (fun v => v.map (fun x => x - 0))))
        (seriesStd [some (0 : ℝ)])))

theorem input_table_not_mutated_witness :
    compositeRun wdf4 "r" "out" = some (wdf4, wout4c) ∧
      sharpeRun wdf4 "r" 0 "out" = some (wdf4, wout4s) ∧
      ((wdf4, wout4c).1 = wdf4 ∧ (wdf4, wout4s).1 = wdf4 ∧
        (wdf4.getCol "out" = none →
          (wdf4, wout4c).1.getCol "out" = none ∧
            (wdf4, wout4s).1.getCol "out" = none)) := by
  have hc : compositeRun wdf4 "r" "out" = some (wdf4, wout4c) :=
    compositeRun_eq wdf4 "r" "out" [some 0] rfl
  have hs : sharpeRun wdf4 "r" 0 "out" = some (wdf4, wout4s) :=
    sharpeRun_eq wdf4 "r" "out" 0 [some 0] rfl
  exact ⟨hc, hs,
    input_table_not_mutated wdf4 "r" "out" 0 (wdf4, wout4c) (wdf4, wout4s) hc hs⟩

/-! ### Claim C6: the output column is a broadcast scalar -/

/-- C6: for both functions, the output column of the returned table has
exactly `df.nrows` rows (the input table's row count) and all of its values
are equal to one another. -/
theorem output_column_broadcast (df : DataFrame) (i o : String) (rfr : ℝ)
    (c : List Val) (hget : df.getCol i = some c) :
    (∃ df₁, ∃ out₁, calculate_composite_annual_return df i o = some df₁ ∧
      df₁.getCol o = some out₁ ∧ out₁.length = df.nrows ∧
      ∀ a ∈ out₁, ∀ b ∈ out₁, a = b) ∧
    (∃ df₂, ∃ out₂, calculate_sharpe_ratio df i rfr o = some df₂ ∧
      df₂.getCol o = some out₂ ∧ out₂.length = df.nrows ∧
      ∀ a ∈ out₂, ∀ b ∈ out₂, a = b) := by
  constructor
  · unfold calculate_composite_annual_return
    rw [compositeRun_eq df i o c hget]
    refine ⟨_, _, rfl, getCol_setCol_self _ _ _, List.length_replicate _ _, ?_⟩
    intro a ha b hb
    rw [List.eq_of_mem_replicate ha, List.eq_of_mem_replicate hb]
  · unfold calculate_sharpe_ratio
    rw [sharpeRun_eq df i o rfr c hget]
    refine ⟨_, _, rfl, getCol_setCol_self _ _ _, List.length_replicate _ _, ?_⟩
    intro a ha b hb
    rw [List.eq_of_mem_replicate ha, List.eq_of_mem_replicate hb]

def wdf6 : DataFrame := ⟨1, [("r", [some 0])]⟩

theorem output_column_broadcast_witness :
    wdf6.getCol "r" = some [some 0] ∧
      ((∃ df₁, ∃ out₁, calculate_composite_annual_return wdf6 "r" "out" = some df₁ ∧
        df₁.getCol "out" = some out₁ ∧ out₁.length = wdf6.nrows ∧
        ∀ a ∈ out₁, ∀ b ∈ out₁, a = b) ∧
      (∃ df₂, ∃ out₂, calculate_sharpe_ratio wdf6 "r" 0 "out" = some df₂ ∧
        df₂.getCol "out" = some out₂ ∧ out₂.length = wdf6.nrows ∧
        ∀ a ∈ out₂, ∀ b ∈ out₂, a = b)) :=
  ⟨rfl, output_column_broadcast wdf6 "r" "out" 0 [some 0] rfl⟩

/-! ### Claim C8: a missing input column propagates the lookup failure -/

/-- C8: when the input column name is absent from the table, both functions
propagate the lookup failure (modelled `none`) instead of returning a table
with a defaulted output column. -/
theorem missing_column_propagates (df : DataFrame) (i o : String) (rfr : ℝ)
    (hget : df.getCol i = none) :
    calculate_composite_annual_return df i o = none ∧
      calculate_sharpe_ratio df i rfr o = none := by
  constructor
  · simp [calculate_composite_annual_return, compositeRun, hget]
  · simp [calculate_sharpe_ratio, sharpeRun, hget]

def wdf8 : DataFrame := ⟨1, [("r", [some 0])]⟩

theorem missing_column_propagates_witness :
    wdf8.getCol "missing" = none ∧
      (calculate_composite_annual_return wdf8 "missing" "out" = none ∧
        calculate_sharpe_ratio wdf8 "missing" 0 "out" = none) :=
  ⟨rfl, missing_column_propagates wdf8 "missing" "out" 0 rfl⟩

/-! ### Claim C9: determinism -/

/-- C9: both functions are deterministic: two calls with identical input
tables, column names and risk-free rate return identical tables. -/
theorem functions_deterministic (df₁ df₂ : DataFrame) (i₁ i₂ o₁ o₂ : String)
    (r₁ r₂ : ℝ) (hdf : df₁ = df₂) (hi : i₁ = i₂) (ho : o₁ = o₂) (hr : r₁ = r₂) :
    calculate_composite_annual_return df₁ i₁ o₁ =
        calculate_composite_annual_return df₂ i₂ o₂ ∧
      calculate_sharpe_ratio df₁ i₁ r₁ o₁ = calculate_sharpe_ratio df₂ i₂ r₂ o₂ := by
  subst hdf
  subst hi
  subst ho
  subst hr
  exact ⟨rfl, rfl⟩

def wdf9 : DataFrame := ⟨1, [("r", [some 0])]⟩

theorem functions_deterministic_witness :
    wdf9 = wdf9 ∧ ("r" : String) = "r" ∧ ("out" : String) = "out" ∧
      ((0 : ℝ) = 0) ∧
      (calculate_composite_annual_return wdf9 "r" "out" =
          calculate_composite_annual_return wdf9 "r" "out" ∧
        calculate_sharpe_ratio wdf9 "r" 0 "out" =
          calculate_sharpe_ratio wdf9 "r" 0 "out") :=
  ⟨rfl, rfl, rfl, rfl,
    functions_deterministic wdf9 wdf9 "r" "r" "out" "out" 0 0 rfl rfl rfl rfl⟩

/-! ### Claim C5: behaviour on returns ≤ -1 -/

def wdf5 : DataFrame := ⟨1, [("r", [some (-1)])]⟩

/-- C5 counterexample: at the periodic return exactly `-1` (so `≤ -1`) the
function neither fails nor produces NaN: `1 + r = 0`, the gmean pipeline
yields `exp (-∞) = 0`, and the output column holds the real value
`0 ^ 12 - 1 = -1`. -/
theorem composite_at_minus_one :
    (calculate_composite_annual_return wdf5 "r" "out").bind
        (fun d => d.getCol "out") = some [some (-1)] ∧
      wdf5.getCol "r" = some [some (-1)] ∧ ((-1 : ℝ) ≤ -1) := by
  refine ⟨?_, rfl, le_refl _⟩
  unfold calculate_composite_annual_return
  rw [compositeRun_eq wdf5 "r" "out" [some (-1)] rfl]
  simp only [Option.map_some', Option.some_bind]
  rw [getCol_setCol_self]
  have hcol : [some (-1 : ℝ)].map (fun v => v.map (fun x => x + 1)) =
      [some 0] := by norm_num
  rw [hcol]
  have hg : gmean [some (0 : ℝ)] = some 0 := by
    unfold gmean gmeanR
    rw [if_neg (by simp), if_neg (by simp)]
    rw [if_neg ?hneg, if_pos ?hpos]
    case hneg =>
      rintro ⟨x, hx, hlt⟩
      have hx0 : x = 0 := by
        simpa using hx
      rw [hx0] at hlt
      exact absurd hlt (by norm_num)
    case hpos =>
      exact ⟨0, by simp, rfl⟩
  rw [hg]
  show some (List.replicate wdf5.nrows (some ((0 : ℝ) ^ (12 : ℕ) - 1))) =
    some [some (-1)]
  norm_num [wdf5]

/-- C5 (amended): when the input column contains a periodic return strictly
below `-1`, every row of the output column is NaN; at exactly `-1` the code
instead produces the real number `-1` (see the counterexample). -/
theorem composite_nan_below_minus_one (df : DataFrame) (i o : String)
    (c : List Val) (r : ℝ) (hget : df.getCol i = some c) (hmem : some r ∈ c)
    (hr : r < -1) :
    ∃ df', calculate_composite_annual_return df i o = some df' ∧
      df'.getCol o = some (List.replicate df.nrows none) := by
  unfold calculate_composite_annual_return
  rw [compositeRun_eq df i o c hget]
  refine ⟨_, rfl, ?_⟩
  rw [getCol_setCol_self]
  have hg : gmean (c.map (fun v => v.map (fun x => x + 1))) = none := by
    unfold gmean
    by_cases hn : (c.map (fun v => v.map (fun x => x + 1))).any Option.isNone
    · rw [if_pos hn]
    · rw [if_neg hn]
      unfold gmeanR
      have hmem' : (r + 1) ∈
          (c.map (fun v => v.map (fun x => x + 1))).filterMap id := by
        apply List.mem_filterMap.mpr
        exact ⟨some (r + 1),
          List.mem_map_of_mem (fun v => v.map (fun x => x + 1)) hmem, rfl⟩
      rw [if_neg (fun h =>
          List.ne_nil_of_mem hmem' (List.eq_nil_of_length_eq_zero h)),
        if_pos ⟨r + 1, hmem', by linarith⟩]
  rw [hg]
  rfl

def wdf5b : DataFrame := ⟨1, [("r", [some (-2)])]⟩

theorem composite_nan_below_minus_one_witness :
    wdf5b.getCol "r" = some [some (-2)] ∧
      (some (-2 : ℝ) ∈ ([some (-2 : ℝ)] : List Val)) ∧ ((-2 : ℝ) < -1) ∧
      ∃ df', calculate_composite_annual_return wdf5b "r" "out" = some df' ∧
        df'.getCol "out" = some (List.replicate wdf5b.nrows none) :=
  ⟨rfl, by simp, by norm_num,
    composite_nan_below_minus_one wdf5b "r" "out" [some (-2)] (-2) rfl
      (by simp) (by norm_num)⟩

end FinancialTools
